import Mathlib

set_option maxRecDepth 100000

/-!
# A shallow embedding of the `silo` key-value store (`src/lib.rs`)

Bytes are modelled as `Nat` (values below 256 in well-formed data), files as
lists of bytes, the data directory as an association list from file name to
contents in `read_dir` listing order, and the store as the pair of the
`logs` and `indices` vectors of `Database`.  Fallible operations return the
store state they leave behind together with an optional error; `panic!` and
`unwrap` failures are modelled by the distinguished error `DbError.panicked`.
Disk write failures are injected through an explicit `ioOk` flag, timestamps
(`SystemTime::now`) and fresh ULIDs (`Ulid::new`) through explicit
parameters, mirroring the nondeterminism of the environment.
-/

namespace Silo

/-- Big-endian bytes of `n`, `w` bytes wide (`u64::to_be_bytes` has `w = 8`,
`u16::to_be_bytes` has `w = 2`); wider values are truncated modulo `256 ^ w`
exactly as the fixed-width Rust integers are. -/
def natToBE : Nat → Nat → List Nat
  | 0, _ => []
  | w + 1, n => natToBE w (n / 256) ++ [n % 256]

/-- Big-endian value of a byte list (`u64::from_be_bytes` /
`usize::from_be_bytes`). -/
def beToNat (bs : List Nat) : Nat :=
  bs.foldl (fun a b => a * 256 + b) 0

/-- One step of the reflected CRC-16/IBM-SDLC (X-25) computation used by the
`crc` crate: xor the byte into the register, then shift eight times with
polynomial `0x8408` (the reflection of `0x1021`). -/
def crc16Update (c b : Nat) : Nat :=
  (List.range 8).foldl
    (fun c _ => if c % 2 = 1 then Nat.xor (c / 2) 0x8408 else c / 2)
    (Nat.xor c (b % 256))

/-- CRC-16/IBM-SDLC of a byte list: initial value `0xFFFF`, final xor
`0xFFFF`; the final `% 65536` mirrors the `u16` register width. -/
def crc16 (bs : List Nat) : Nat :=
  Nat.xor (bs.foldl crc16Update 0xFFFF) 0xFFFF % 65536

/-- Is `b` a UTF-8 continuation byte? -/
def isCont (b : Nat) : Bool :=
  0x80 ≤ b && b ≤ 0xBF

/-- Consume one well-formed UTF-8 scalar value from the front of the list,
per the validation performed by Rust's `String::from_utf8` (overlong forms
and surrogates rejected). -/
def utf8Step : List Nat → Option (List Nat)
  | [] => none
  | b :: rest =>
    if b ≤ 0x7F then some rest
    else if 0xC2 ≤ b && b ≤ 0xDF then
      match rest with
      | b1 :: r => if isCont b1 then some r else none
      | [] => none
    else if b = 0xE0 then
      match rest with
      | b1 :: b2 :: r =>
        if (0xA0 ≤ b1 && b1 ≤ 0xBF) && isCont b2 then some r else none
      | _ => none
    else if (0xE1 ≤ b && b ≤ 0xEC) || b = 0xEE || b = 0xEF then
      match rest with
      | b1 :: b2 :: r => if isCont b1 && isCont b2 then some r else none
      | _ => none
    else if b = 0xED then
      match rest with
      | b1 :: b2 :: r =>
        if (0x80 ≤ b1 && b1 ≤ 0x9F) && isCont b2 then some r else none
      | _ => none
    else if b = 0xF0 then
      match rest with
      | b1 :: b2 :: b3 :: r =>
        if (0x90 ≤ b1 && b1 ≤ 0xBF) && isCont b2 && isCont b3 then some r else none
      | _ => none
    else if 0xF1 ≤ b && b ≤ 0xF3 then
      match rest with
      | b1 :: b2 :: b3 :: r =>
        if isCont b1 && isCont b2 && isCont b3 then some r else none
      | _ => none
    else if b = 0xF4 then
      match rest with
      | b1 :: b2 :: b3 :: r =>
        if (0x80 ≤ b1 && b1 ≤ 0x8F) && isCont b2 && isCont b3 then some r else none
      | _ => none
    else none

/-- Fueled UTF-8 validation loop; each step consumes at least one byte, so
fuel equal to the length of the list always suffices. -/
def validUtf8Fuel : Nat → List Nat → Bool
  | _, [] => true
  | 0, _ :: _ => false
  | f + 1, l =>
    match utf8Step l with
    | none => false
    | some r => validUtf8Fuel f r

/-- Does `String::from_utf8` accept this byte list? -/
def validUtf8 (l : List Nat) : Bool :=
  validUtf8Fuel l.length l

/-- `read_exact` into a buffer of `n` bytes: succeeds with the bytes and the
remaining input exactly when at least `n` bytes remain. -/
def readN (n : Nat) (bs : List Nat) : Option (List Nat × List Nat) :=
  if n ≤ bs.length then some (bs.take n, bs.drop n) else none

/-- The operation recorded by a log entry (`Operation` in the source);
keys and values are carried as their UTF-8 byte lists. -/
inductive Operation where
  | set (value : List Nat)
  | delete
deriving DecidableEq, Repr

/-- An entry in a log file (`Entry` in the source). -/
structure Entry where
  offset : Nat
  key : List Nat
  operation : Operation
deriving DecidableEq, Repr

/-- The distinguishable failure outcomes of the embedded operations.  The
source uses untyped `anyhow` errors plus `panic!`/`unwrap`; here each
failure site is tagged: `eof` for a failed `read_exact`, `ioRead`/`ioWrite`
for injected filesystem failures, `utf8` for `String::from_utf8` errors,
`checksum` for the CRC mismatch `bail!`, `indexInconsistency` for the
"indexed key offset does not point to value" `bail!`, `invalidUlid` for
`Ulid::from_string` errors, and `panicked` for `panic!` or a failed
`unwrap`/`expect` (which abort the thread rather than return). -/
inductive DbError where
  | eof
  | ioRead
  | ioWrite
  | utf8
  | checksum
  | indexInconsistency
  | invalidUlid
  | panicked
deriving DecidableEq, Repr

/-- The byte sequence that the `checksum` digest in `Log::append` and
`Log::entry_at` covers: timestamp, key length, key bytes, opcode, and for a
`Set` the value length and value bytes. -/
def entryPayload (ts : Nat) (key : List Nat) (op : Operation) : List Nat :=
  natToBE 8 ts ++ natToBE 8 key.length ++ key ++
    (match op with
     | .set v => [0] ++ natToBE 8 v.length ++ v
     | .delete => [1])

/-- The exact bytes `Log::append` writes for one record: 2-byte CRC over the
payload, then the payload itself. -/
def encodeEntry (ts : Nat) (key : List Nat) (op : Operation) : List Nat :=
  natToBE 2 (crc16 (entryPayload ts key op)) ++ entryPayload ts key op

/-- `Log::entry_at`: decode the record starting at `offset` in `data`,
returning the entry and the stream position after it.  Field order, the
error at each site, and the fact that the opcode `panic!` fires before the
checksum is ever compared all follow the source. -/
def entry_at (data : List Nat) (offset : Nat) : Except DbError (Entry × Nat) :=
  let rest0 := data.drop offset
  match readN 2 rest0 with
  | none => .error .eof
  | some (csBytes, r1) =>
    match readN 8 r1 with
    | none => .error .eof
    | some (tsBytes, r2) =>
      match readN 8 r2 with
      | none => .error .eof
      | some (keyLenBytes, r3) =>
        let keyLen := beToNat keyLenBytes
        match readN keyLen r3 with
        | none => .error .eof
        | some (keyBytes, r4) =>
          if validUtf8 keyBytes then
            match readN 1 r4 with
            | none => .error .eof
            | some (opBytes, r5) =>
              let opcode := opBytes.headD 0
              if opcode = 0 then
                match readN 8 r5 with
                | none => .error .eof
                | some (valLenBytes, r6) =>
                  let valLen := beToNat valLenBytes
                  match readN valLen r6 with
                  | none => .error .eof
                  | some (valBytes, _) =>
                    if validUtf8 valBytes then
                      let op := Operation.set valBytes
                      if crc16 (entryPayload (beToNat tsBytes) keyBytes op)
                          = beToNat csBytes then
                        .ok (⟨offset, keyBytes, op⟩,
                          offset + 2 + 8 + 8 + keyLen + 1 + 8 + valLen)
                      else .error .checksum
                    else .error .utf8
              else if opcode = 1 then
                if crc16 (entryPayload (beToNat tsBytes) keyBytes .delete)
                    = beToNat csBytes then
                  .ok (⟨offset, keyBytes, .delete⟩,
                    offset + 2 + 8 + 8 + keyLen + 1)
                else .error .checksum
              else .error .panicked
          else .error .utf8

/-- The scan loop behind `Log::entries` / `Entries::next`, fueled.  A
decode error other than a panic ends the iteration silently (the source's
`self.log.entry_at(self.pos).ok()?`); a panic propagates, since `panic!`
aborts rather than returning an error. -/
def entriesFuel : Nat → List Nat → Nat → Except DbError (List Entry)
  | 0, _, _ => .ok []
  | f + 1, data, pos =>
    match entry_at data pos with
    | .error .panicked => .error .panicked
    | .error _ => .ok []
    | .ok (e, pos') =>
      match entriesFuel f data pos' with
      | .error err => .error err
      | .ok es => .ok (e :: es)

/-- `Log::entries`: scan the whole file from offset 0.  Every successful
decode advances the position by at least 19 bytes, so fuel `data.length + 1`
is never exhausted. -/
def entries (data : List Nat) : Except DbError (List Entry) :=
  entriesFuel (data.length + 1) data 0

/-- A keydir entry (`IndexEntry` in the source). -/
inductive IndexEntry where
  | offset (o : Nat)
  | tombstone
deriving DecidableEq, Repr

/-- A key, as its UTF-8 bytes. -/
abbrev Key := List Nat

/-- An in-memory keydir (`Index` in the source): the contents of the
`HashMap<String, IndexEntry>`, modelled as an association list with unique
keys.  The hash map's arbitrary iteration order is fixed here to insertion
order, which the store's semantics never depend on. -/
abbrev Index := List (Key × IndexEntry)

/-- `HashMap::insert`: replace the binding if the key is present, otherwise
append it. -/
def idxInsert : Index → Key → IndexEntry → Index
  | [], k, v => [(k, v)]
  | (k', v') :: rest, k, v =>
    if k' = k then (k', v) :: rest else (k', v') :: idxInsert rest k v

/-- `HashMap::remove`. -/
def idxRemove : Index → Key → Index
  | [], _ => []
  | (k', v') :: rest, k =>
    if k' = k then rest else (k', v') :: idxRemove rest k

/-- `HashMap::get`. -/
def idxLookup : Index → Key → Option IndexEntry
  | [], _ => none
  | (k', v') :: rest, k => if k' = k then some v' else idxLookup rest k

/-- The data directory: file name and contents for each file, in the order
`fs::read_dir` yields them (which the OS does not sort). -/
abbrev FS := List (String × List Nat)

/-- Contents of the file named `p`, if it exists. -/
def fsRead : FS → String → Option (List Nat)
  | [], _ => none
  | (q, d) :: rest, p => if q = p then some d else fsRead rest p

/-- Create or overwrite the file named `p` with contents `d`; a new file is
appended at the end of the listing. -/
def fsWrite : FS → String → List Nat → FS
  | [], p, d => [(p, d)]
  | (q, e) :: rest, p, d =>
    if q = p then (q, d) :: rest else (q, e) :: fsWrite rest p d

/-- The `Database` state: the `logs` vector is reduced to the paths of the
segment files (their bytes live in the `FS`), the `indices` vector is kept
as is.  The mutex wrappers are elided: every claim concerns one operation
at a time, and all public operations hold both locks for their full
duration. -/
structure Database where
  logs : List String
  indices : List Index
deriving DecidableEq, Repr

/-- Rebuild one segment's keydir from its scanned entries, as the loop in
`Database::start` does: `Set` inserts `Offset(entry.offset)`, `Delete`
inserts `Tombstone`. -/
def buildIndex (es : List Entry) : Index :=
  es.foldl
    (fun idx e =>
      idxInsert idx e.key
        (match e.operation with
         | .set _ => .offset e.offset
         | .delete => .tombstone))
    []

/-- The `read_dir` loop of `Database::start`: every directory entry, in
listing order, is opened as a log and scanned into a keydir.  The only
failure the scan itself can surface is a propagated panic, since
`Entries::next` converts decode errors into end-of-iteration. -/
def startFiles : FS → Except DbError (List String × List Index)
  | [] => .ok ([], [])
  | (p, d) :: rest =>
    match entries d with
    | .error e => .error e
    | .ok es =>
      match startFiles rest with
      | .error e => .error e
      | .ok (ps, idxs) => .ok (p :: ps, buildIndex es :: idxs)

/-- `Database::start` (bootstrap): scan the data directory in listing
order; if no file was found, create one fresh empty tail log (`Log::new`,
whose random ULID name is passed in as `freshPath`).  The spawned compactor
thread is modelled separately by `compactLoop`. -/
def start (fs : FS) (freshPath : String) : Except DbError (Database × FS) :=
  match startFiles fs with
  | .error e => .error e
  | .ok (ps, idxs) =>
    if ps.isEmpty then .ok (⟨[freshPath], [[]]⟩, fsWrite fs freshPath [])
    else .ok (⟨ps, idxs⟩, fs)

/-- Replace the last element of a list, if any. -/
def setLast (l : List α) (f : α → α) : List α :=
  match l.getLast? with
  | none => l
  | some a => l.dropLast ++ [f a]

/-- `MAX_FILE_SIZE_BYTES` as the source defines it: `4 * 1024.pow(3)`
bytes, i.e. 4 GiB (the comment in the source says "4MB"). -/
def MAX_FILE_SIZE_BYTES : Nat := 4 * 1024 ^ 3

/-- `Database::set`: append a `Set` record to the tail log (failing with
`ioWrite` and leaving everything unchanged when the injected disk write
fails), record `Offset(offset)` in the tail keydir, then, if the tail log's
size reached `MAX_FILE_SIZE_BYTES`, push a fresh tail log — and, exactly as
in the source, push no matching fresh keydir. -/
def Database.set (fs : FS) (db : Database) (key value : List Nat) (ts : Nat)
    (ioOk : Bool) (freshPath : String) : FS × Database × Option DbError :=
  match db.logs.getLast? with
  | none => (fs, db, some .panicked)
  | some tailPath =>
    match fsRead fs tailPath with
    | none => (fs, db, some .ioRead)
    | some data =>
      if ioOk then
        match db.indices.getLast? with
        | none =>
          (fsWrite fs tailPath (data ++ encodeEntry ts key (.set value)), db,
            some .panicked)
        | some _ =>
          let offset := data.length
          let data' := data ++ encodeEntry ts key (.set value)
          let fs' := fsWrite fs tailPath data'
          let db' : Database :=
            ⟨db.logs, setLast db.indices (fun idx => idxInsert idx key (.offset offset))⟩
          if MAX_FILE_SIZE_BYTES ≤ data'.length then
            (fsWrite fs' freshPath [], ⟨db'.logs ++ [freshPath], db'.indices⟩, none)
          else (fs', db', none)
      else (fs, db, some .ioWrite)

/-- `Database::delete`: first remove the key from the tail keydir (the
source's `indices.last_mut().unwrap().0.remove(key)` — not a tombstone
insert), then append a `Delete` record; when the injected disk write fails
the keydir mutation has already happened. -/
def Database.delete (fs : FS) (db : Database) (key : List Nat) (ts : Nat)
    (ioOk : Bool) : FS × Database × Option DbError :=
  match db.indices.getLast? with
  | none => (fs, db, some .panicked)
  | some _ =>
    let db1 : Database := ⟨db.logs, setLast db.indices (fun idx => idxRemove idx key)⟩
    match db1.logs.getLast? with
    | none => (fs, db1, some .panicked)
    | some tailPath =>
      match fsRead fs tailPath with
      | none => (fs, db1, some .ioRead)
      | some data =>
        if ioOk then
          (fsWrite fs tailPath (data ++ encodeEntry ts key .delete), db1, none)
        else (fs, db1, some .ioWrite)

/-- The newest-to-oldest walk of `Database::get`, with every exit point
returning the (unchanged) filesystem and store it was given, mirroring the
`&mut self` receiver.  `rev` is the reversed `indices` vector and `i` the
enumeration counter; `logs[logs.len() - i - 1]` is read through `get?`,
with the out-of-bounds panic mapped to `panicked`. -/
def getAux (fs : FS) (db : Database) (rev : List Index) (i : Nat) (key : Key) :
    FS × Database × Except DbError (Option (List Nat)) :=
  match rev with
  | [] => (fs, db, .ok none)
  | idx :: rest =>
    match idxLookup idx key with
    | none => getAux fs db rest (i + 1) key
    | some .tombstone => (fs, db, .ok none)
    | some (.offset offset) =>
      match db.logs.get? (db.logs.length - i - 1) with
      | none => (fs, db, .error .panicked)
      | some p =>
        match fsRead fs p with
        | none => (fs, db, .error .ioRead)
        | some data =>
          match entry_at data offset with
          | .error e => (fs, db, .error e)
          | .ok (e, _) =>
            match e.operation with
            | .set v => (fs, db, .ok (some v))
            | .delete => (fs, db, .error .indexInconsistency)

/-- `Database::get`: walk the keydirs newest to oldest; a `Tombstone` and a
missing key both yield `None`, an `Offset` is resolved by a random read of
the corresponding log. -/
def Database.get (fs : FS) (db : Database) (key : Key) :
    FS × Database × Except DbError (Option (List Nat)) :=
  getAux fs db db.indices.reverse 0 key

/-- The Crockford base32 alphabet used by ULIDs. -/
def crockfordChars : List Char := "0123456789ABCDEFGHJKMNPQRSTVWXYZ".toList

/-- Position of a character in a list, if present. -/
def charIdx : List Char → Char → Nat → Option Nat
  | [], _, _ => none
  | d :: rest, c, i => if d = c then some i else charIdx rest c (i + 1)

/-- Uppercase an ASCII letter. -/
def upperChar (c : Char) : Char :=
  if 'a' ≤ c && c ≤ 'z' then Char.ofNat (c.toNat - 32) else c

/-- Value of one Crockford base32 digit, case-insensitive; characters
outside the alphabet are rejected as `Ulid::from_string` rejects them. -/
def crockfordVal (c : Char) : Option Nat :=
  charIdx crockfordChars (upperChar c) 0

/-- `Ulid::from_string`: 26 Crockford base32 digits encoding a 128-bit
value; wrong length, an invalid digit, or a value overflowing 128 bits is
an error. -/
def ulidFromString (s : String) : Option Nat :=
  let cs := s.toList
  if cs.length = 26 then
    match cs.foldlM (fun acc c => (crockfordVal c).map (fun v => acc * 32 + v)) 0 with
    | none => none
    | some u => if u < 2 ^ 128 then some u else none
  else none

/-- `Ulid`'s `Display`: the canonical 26-digit Crockford base32 form. -/
def ulidToString (u : Nat) : String :=
  String.mk ((List.range 26).map (fun i => crockfordChars.getD (u / 32 ^ (25 - i) % 32) '0'))

/-- `Ulid::increment`: the monotonic successor, `None` at the 128-bit
maximum (where the source's `.unwrap()` would panic). -/
def ulidIncrement (u : Nat) : Option Nat :=
  if u + 1 < 2 ^ 128 then some (u + 1) else none

/-- `Path::file_stem` for the file names the store manipulates: the part
before the last dot, the whole name when there is no dot. -/
def fileStem (s : String) : String :=
  let cs := s.toList
  match charIdx cs.reverse '.' 0 with
  | none => s
  | some i => String.mk (cs.take (cs.length - 1 - i))

/-- One `HashMap::insert` into the compactor's `key → latest operation`
map, also reporting whether a previous binding existed (the source's
`previous.is_some()`). -/
def mapInsert : List (Key × Operation) → Key → Operation → List (Key × Operation) × Bool
  | [], k, op => ([(k, op)], false)
  | (k', op') :: rest, k, op =>
    if k' = k then ((k', op) :: rest, true)
    else
      match mapInsert rest k op with
      | (m, prev) => ((k', op') :: m, prev)

/-- The compactor's scan of one segment: fold the entries into a
last-writer-wins map, latching `should_compact` as soon as any insert
replaces a previous binding. -/
def scanToMap (es : List Entry) : List (Key × Operation) × Bool :=
  es.foldl
    (fun acc e =>
      match mapInsert acc.1 e.key e.operation with
      | (m, prev) => (m, acc.2 || prev))
    ([], false)

/-- The body of `Database::compact_logs` for a single directory entry
`path`.  Returns the filesystem and store it leaves behind together with
the error, if any, that the `?` operators or a panic would produce; all
mutation of the store lists happens, as in the source, only at the very
end, after the compacted segment has been fully written and rescanned. -/
def compactOne (fs : FS) (db : Database) (path : String) (ts : Nat) (ioOk : Bool) :
    FS × Database × Option DbError :=
  match fsRead fs path with
  | none => (fs, db, some .ioRead)
  | some data =>
    match entries data with
    | .error e => (fs, db, some e)
    | .ok es =>
      match scanToMap es with
      | (m, shouldCompact) =>
        if shouldCompact then
          match ulidFromString (fileStem path) with
          | none => (fs, db, some .invalidUlid)
          | some sourceId =>
            match ulidIncrement sourceId with
            | none => (fs, db, some .panicked)
            | some compactedId =>
              let newPath := ulidToString compactedId ++ ".log"
              let initData := (fsRead fs newPath).getD []
              let fs1 := fsWrite fs newPath initData
              if ioOk then
                let newData :=
                  m.foldl (fun acc kv => acc ++ encodeEntry ts kv.1 kv.2) initData
                let fs2 := fsWrite fs1 newPath newData
                match db.logs.indexOf? path with
                | none => (fs2, db, some .panicked)
                | some pos =>
                  match entries newData with
                  | .error e => (fs2, db, some e)
                  | .ok es2 =>
                    (fs2,
                      ⟨db.logs.set pos newPath, db.indices.set pos (buildIndex es2)⟩,
                      none)
              else (fs1, db, some .ioWrite)
        else (fs, db, none)

/-- One full compactor cycle: iterate over the directory listing as it
stood when `read_dir` was called, stopping at the first error exactly as
the `?` operators inside the `for` loop do. -/
def compactFiles : List String → FS → Database → Nat → Bool → FS × Database × Option DbError
  | [], fs, db, _, _ => (fs, db, none)
  | p :: rest, fs, db, ts, ioOk =>
    match compactOne fs db p ts ioOk with
    | (fs', db', none) => compactFiles rest fs' db' ts ioOk
    | (fs', db', some e) => (fs', db', some e)

/-- One iteration of the `loop` in `Database::compact_logs` (after the
sleep): scan every file listed in the data directory. -/
def compactCycle (fs : FS) (db : Database) (ts : Nat) (ioOk : Bool) :
    FS × Database × Option DbError :=
  compactFiles (fs.map Prod.fst) fs db ts ioOk

/-- The `loop` of `Database::compact_logs`, driven by a finite schedule of
(timestamp, disk-writes-succeed) cycles.  Returns the final state, how many
cycles actually ran, and the error that ended the loop, if any: the first
error returns from `compact_logs`, after which the spawned thread only
prints it — no later cycle ever runs. -/
def compactLoop : List (Nat × Bool) → FS → Database → FS × Database × Nat × Option DbError
  | [], fs, db => (fs, db, 0, none)
  | c :: rest, fs, db =>
    match compactCycle fs db c.1 c.2 with
    | (fs', db', none) =>
      match compactLoop rest fs' db' with
      | (fs'', db'', n, e) => (fs'', db'', n + 1, e)
    | (fs', db', some e) => (fs', db', 1, some e)

/-- Modelled from the spec: the safety bound `MAX_FIELD_BYTES` on decoded
key/value lengths (default 64 MiB per field).  The source defines no such
constant and performs no such check; the definition exists to state the
claim that it should. -/
def MAX_FIELD_BYTES : Nat := 64 * 1024 * 1024

/-- A two-segment data directory: an older segment holding `Set k "o"` and
an empty tail segment, with valid ULID file names so that the compactor can
process them. -/
def pathA : String := "00000000000000000000000001.log"

/-- The tail segment's file name. -/
def pathB : String := "00000000000000000000000002.log"

/-- A fresh ULID path for `Log::new`, unused in the two-segment scenarios
because bootstrap finds existing segments. -/
def freshPath : String := "00000000000000000000000009.log"

/-- The key `"k"` as UTF-8 bytes. -/
def kBytes : List Nat := [107]

/-- The value `"o"` (the older segment's value for the key). -/
def oldBytes : List Nat := [111]

/-- The value `"n"` (the value set and then deleted in the tail). -/
def newBytes : List Nat := [110]

/-- The two-segment data directory contents at bootstrap. -/
def fs0 : FS := [(pathA, encodeEntry 1 kBytes (.set oldBytes)), (pathB, [])]

/-- The store and directory reached by bootstrapping `fs0` and then running
`set(k, "n")` followed by `delete(k)` against the tail segment.  The
fallback arm is unreachable: bootstrap succeeds on `fs0`. -/
def cState : FS × Database :=
  match start fs0 freshPath with
  | .ok (db0, fsb) =>
    match Database.set fsb db0 kBytes newBytes 2 true freshPath with
    | (fs1, db1, _) =>
      match Database.delete fs1 db1 kBytes 3 true with
      | (fs2, db2, _) => (fs2, db2)
  | .error _ => ([], ⟨[], []⟩)

/-- A directory listing that `read_dir` yields out of lexicographic order
and that contains a file which is not a `{ulid}.log` segment. -/
def fs5 : FS := [("zz.log", []), ("aa.log", []), ("notes.txt", [])]

/-- Corrupt a record by altering its first byte (part of the stored CRC),
as a single flipped bit on disk would. -/
def corruptFirst : List Nat → List Nat
  | [] => []
  | b :: r => (b + 1) % 256 :: r

/-- A segment whose bytes are one well-formed record followed by a record
whose stored CRC disagrees with its contents. -/
def fs6 : FS :=
  [(pathA, encodeEntry 7 kBytes (.set oldBytes) ++
      corruptFirst (encodeEntry 8 kBytes (.set newBytes)))]

/-- Input bytes whose opcode byte is `2`: a 2-byte stored CRC, an 8-byte
timestamp, a zero key length, no key bytes, then the unrecognized opcode. -/
def badOpInput : List Nat := [0, 0] ++ natToBE 8 0 ++ natToBE 8 0 ++ [2]

/-- A store whose single (tail) segment already holds
`MAX_FILE_SIZE_BYTES` bytes, so that the next `set` triggers rollover. -/
def bigFs : FS := [(pathA, List.replicate MAX_FILE_SIZE_BYTES 0)]

/-- The in-memory side of the `bigFs` store: one segment, one empty
keydir. -/
def bigDb : Database := ⟨[pathA], [[]]⟩

/-- A one-segment store whose tail keydir holds a `Live` entry for the key,
used to observe what a failed append leaves behind. -/
def db4 : Database := ⟨[pathA], [[(kBytes, .offset 0)]]⟩

/-- The directory backing `db4`. -/
def fs4 : FS := [(pathA, encodeEntry 1 kBytes (.set oldBytes))]

/-- A key length strictly above the spec's `MAX_FIELD_BYTES` bound. -/
def bigLen : Nat := 2 ^ 26 + 1

/-- A well-formed UTF-8 key (`"0"` repeated) longer than
`MAX_FIELD_BYTES`. -/
def bigKey : List Nat := List.replicate bigLen 48

/-- Sanity anchor: the CRC-16/IBM-SDLC check value for the bytes of
`"123456789"` is `0x906E`, as documented for the `crc` crate's
`CRC_16_IBM_SDLC` parameters. -/
theorem crc16_check_value :
    crc16 [0x31, 0x32, 0x33, 0x34, 0x35, 0x36, 0x37, 0x38, 0x39] = 0x906E := by
  decide

/-- Sanity anchor: a record encoded by `Log::append` decodes back to itself
through `Log::entry_at` (the spec's Roundtrip property, on a sample
record). -/
theorem encode_decode_roundtrip_sample :
    entry_at (encodeEntry 42 kBytes (.set oldBytes)) 0
      = .ok (⟨0, kBytes, .set oldBytes⟩, 29) := rfl

/-- C1: the delete issued through the public API does not shadow an older
segment's `Live` entry.  Bootstrapping the two-segment directory `fs0`,
then running `set(k, "n")` and `delete(k)` (both succeeding), leaves a
store whose `get(k)` returns the *older segment's* value `"o"` instead of
the `None` the claim requires: `Database::delete` removes `k` from the tail
keydir instead of inserting the `Tombstone` the spec prescribes, so the
newest-to-oldest walk falls through to the older segment. -/
theorem delete_does_not_shadow_older_segment :
    (match start fs0 freshPath with
     | .ok (db0, fsb) =>
       match Database.set fsb db0 kBytes newBytes 2 true freshPath with
       | (fs1, db1, e1) =>
         match Database.delete fs1 db1 kBytes 3 true with
         | (fs2, db2, e2) => some (e1, e2, (Database.get fs2 db2 kBytes).2.2)
     | .error _ => none)
    = some (none, none, .ok (some oldBytes)) := rfl

/-- C2: one full compaction cycle changes an observable `get` result.  In
the state `cState` (reached through the public API), `get(k)` returns the
older segment's value `"o"`; after one error-free compaction cycle the tail
segment is rewritten and its keydir rebuilt with a `Tombstone` for `k` (the
on-disk `Delete` record is replayed), so `get(k)` becomes `None`.  The
cycle is thus not state-preserving, because the live `delete` had removed
the key from the in-memory keydir while leaving the `Delete` record on
disk. -/
theorem compaction_changes_get_result :
    (Database.get cState.1 cState.2 kBytes).2.2 = .ok (some oldBytes) ∧
    (match compactCycle cState.1 cState.2 9 true with
     | (fs3, db3, e) => (e, (Database.get fs3 db3 kBytes).2.2))
      = (none, .ok none) := ⟨rfl, rfl⟩

/-- C4: a `delete` whose disk append fails still mutates the in-memory
keydir, because `Database::delete` removes the key from the tail keydir
*before* attempting the append; `set` by contrast leaves the keydir
untouched when its append fails.  Starting from a store whose tail keydir
maps the key to `Live(0)`, a failed `delete` returns the I/O error with the
key already gone from the keydir. -/
theorem failed_delete_mutates_keydir :
    Database.delete fs4 db4 kBytes 5 false
      = (fs4, ⟨[pathA], [[]]⟩, some .ioWrite) ∧
    Database.set fs4 db4 kBytes newBytes 5 false freshPath
      = (fs4, db4, some .ioWrite) := ⟨rfl, rfl⟩

/-- C5: bootstrap neither filters the directory listing to `{id}.log`
names nor sorts it.  On a listing that `read_dir` yields in the order
`zz.log`, `aa.log`, `notes.txt`, `Database::start` builds the segment list
in exactly that order — not id-ascending — and opens `notes.txt` as a
segment instead of ignoring it. -/
theorem bootstrap_keeps_listing_order_and_junk :
    start fs5 freshPath
      = .ok (⟨["zz.log", "aa.log", "notes.txt"], [[], [], []]⟩, fs5) := rfl

/-- C6: a corrupt record does not abort bootstrap.  On a segment holding
one well-formed record followed by a record whose stored CRC disagrees with
its contents, `Entries::next` turns the decode error into the end of
iteration (`.ok()?`), so the scan silently accepts the good prefix and
`Database::start` succeeds — the claimed `BootstrapError` never
surfaces. -/
theorem bootstrap_accepts_corrupt_tail :
    start fs6 freshPath
      = .ok (⟨[pathA], [[(kBytes, .offset 0)]]⟩, fs6) := rfl

/-- C7: `Log::entry_at` does not return a `CorruptRecord`-style error on an
unrecognized opcode — it panics (`panic!("unrecognized opcode: …")`),
modelled by the distinguished outcome `panicked`, which aborts the thread
instead of being an `Err` the caller could observe.  The input decodes
cleanly up to an opcode byte of `2`. -/
theorem unknown_opcode_panics :
    entry_at badOpInput 0 = .error .panicked := rfl

/-- C9: the compactor loop terminates permanently on its first error.
With a schedule of two cycles over the `cState` directory (whose tail
segment needs compaction), the first cycle's compacted-segment append fails
with an I/O error; `compact_logs` propagates it out of its `loop` via `?`,
so only one cycle ever runs, the second (error-free) cycle is never
attempted, and the store's segment and keydir lists are left unchanged. -/
theorem compactor_stops_after_first_error :
    (compactLoop [(5, false), (6, true)] cState.1 cState.2).2
      = (cState.2, 1, some .ioWrite) := rfl

/-- Every exit point of the `get` walk hands back the filesystem and store
it was given. -/
theorem getAux_frame (fs : FS) (db : Database) (k : Key) :
    ∀ (rev : List Index) (i : Nat),
      (getAux fs db rev i k).1 = fs ∧ (getAux fs db rev i k).2.1 = db := by
  intro rev
  induction rev with
  | nil => intro i; exact ⟨rfl, rfl⟩
  | cons idx rest ih =>
    intro i
    unfold getAux
    repeat' split
    all_goals first
      | exact ih (i + 1)
      | exact ⟨rfl, rfl⟩

/-- C10: `get` leaves the store's observable state unchanged — the segment
list, every keydir, and the on-disk bytes of every segment are identical
before and after the call, whatever the call returns.  (The only mutation
the source performs is the file handle's seek position, which is not an
observable listed by the claim and is not part of the state model.) -/
theorem get_leaves_state_unchanged (fs : FS) (db : Database) (key : Key) :
    (Database.get fs db key).1 = fs ∧ (Database.get fs db key).2.1 = db :=
  getAux_frame fs db key db.indices.reverse 0

/-- When the tail segment's size reaches the threshold, `set` appends the
record, updates the tail keydir, and pushes a fresh tail log — but no
fresh keydir. -/
theorem set_rollover_general (fs : FS) (db : Database) (p : String)
    (data : List Nat) (idx : Index) (key value : List Nat) (ts : Nat)
    (fresh : String)
    (hp : db.logs.getLast? = some p) (hd : fsRead fs p = some data)
    (hi : db.indices.getLast? = some idx)
    (hsz : MAX_FILE_SIZE_BYTES ≤ (data ++ encodeEntry ts key (.set value)).length) :
    Database.set fs db key value ts true fresh
      = (fsWrite (fsWrite fs p (data ++ encodeEntry ts key (.set value))) fresh [],
         ⟨db.logs ++ [fresh],
          setLast db.indices (fun i => idxInsert i key (.offset data.length))⟩,
         none) := by
  unfold Database.set
  simp only [hp, hd, hi]
  simp only [List.length_append] at hsz
  simp [hsz]

/-- C3: the rollover in `set` breaks the `|segments| == |keydirs|`
invariant.  On a store whose tail segment already holds
`MAX_FILE_SIZE_BYTES` bytes, one successful `set` pushes a second log but
leaves a single keydir: the source's rollover branch runs
`logs.push(Log::new()?)` with no matching `indices.push`. -/
theorem rollover_pushes_log_without_keydir :
    (Database.set bigFs bigDb kBytes newBytes 5 true freshPath).2.1.logs.length = 2 ∧
    (Database.set bigFs bigDb kBytes newBytes 5 true freshPath).2.1.indices.length = 1 ∧
    (Database.set bigFs bigDb kBytes newBytes 5 true freshPath).2.2 = none := by
  rw [set_rollover_general bigFs bigDb pathA (List.replicate MAX_FILE_SIZE_BYTES 0)
    [] kBytes newBytes 5 freshPath (by simp [bigDb]) (by simp [bigFs, fsRead])
    (by simp [bigDb]) (by simp [Nat.le_add_right])]
  simp [bigDb, setLast]

/-- `natToBE` always produces exactly `w` bytes. -/
theorem natToBE_length (w n : Nat) : (natToBE w n).length = w := by
  induction w generalizing n with
  | zero => simp [natToBE]
  | succ w ih => simp [natToBE, ih]

/-- `read_exact` on input that starts with exactly the requested bytes. -/
theorem readN_exact (n : Nat) (xs ys : List Nat) (h : xs.length = n) :
    readN n (xs ++ ys) = some (xs, ys) := by
  subst h
  simp [readN, List.take_left, List.drop_left, Nat.le_add_right]

/-- `read_exact` of a `w`-byte big-endian field. -/
theorem readN_natToBE (w n : Nat) (ys : List Nat) :
    readN w (natToBE w n ++ ys) = some (natToBE w n, ys) :=
  readN_exact w _ ys (natToBE_length w n)

/-- Decoding a big-endian field recovers the value modulo the field
width. -/
theorem beToNat_natToBE (w n : Nat) : beToNat (natToBE w n) = n % 256 ^ w := by
  induction w generalizing n with
  | zero => simp [natToBE, beToNat, Nat.mod_one]
  | succ w ih =>
    have happ : beToNat (natToBE w (n / 256) ++ [n % 256])
        = beToNat (natToBE w (n / 256)) * 256 + n % 256 := by
      simp [beToNat, List.foldl_append]
    rw [natToBE, happ, ih, Nat.pow_succ, Nat.mul_comm (256 ^ w) 256, Nat.mod_mul]
    ring

/-- `natToBE` only depends on the value modulo the field width. -/
theorem natToBE_mod (w n : Nat) : natToBE w (n % 256 ^ w) = natToBE w n := by
  induction w generalizing n with
  | zero => simp [natToBE]
  | succ w ih =>
    have h1 : n % 256 ^ (w + 1) / 256 = n / 256 % 256 ^ w := by
      rw [Nat.pow_succ, Nat.mul_comm (256 ^ w) 256]
      exact Nat.mod_mul_right_div_self n 256 (256 ^ w)
    have h2 : n % 256 ^ (w + 1) % 256 = n % 256 :=
      Nat.mod_mod_of_dvd n (dvd_pow_self 256 (Nat.succ_ne_zero w))
    rw [natToBE, natToBE, h1, h2, ih]

/-- The 16-bit CRC register always holds a 16-bit value. -/
theorem crc16_lt (bs : List Nat) : crc16 bs < 65536 :=
  Nat.mod_lt _ (by norm_num)

/-- A run of ASCII bytes passes fueled UTF-8 validation whenever the fuel
covers its length. -/
theorem validUtf8Fuel_replicate (n : Nat) :
    ∀ f : Nat, n ≤ f → validUtf8Fuel f (List.replicate n 48) = true := by
  induction n with
  | zero => intro f _; cases f <;> simp [validUtf8Fuel, List.replicate]
  | succ n ih =>
    intro f hf
    match f, hf with
    | f + 1, hf =>
      have hs : validUtf8Fuel (f + 1) (List.replicate (n + 1) 48)
          = validUtf8Fuel f (List.replicate n 48) := by
        simp [List.replicate_succ, validUtf8Fuel, utf8Step]
      rw [hs]
      exact ih f (Nat.le_of_succ_le_succ hf)

/-- A run of ASCII `"0"` bytes of any length is valid UTF-8. -/
theorem validUtf8_replicate (n : Nat) : validUtf8 (List.replicate n 48) = true := by
  rw [validUtf8, List.length_replicate]
  exact validUtf8Fuel_replicate n n le_rfl

/-- The length of `bigKey`. -/
theorem bigKey_length : bigKey.length = bigLen := by
  rw [bigKey]; exact List.length_replicate _ _

/-- General roundtrip for `Delete` records: `entry_at` decodes what
`append` encoded, for any valid-UTF-8 key whose length fits the 64-bit
length field — with no upper bound whatsoever on that length. -/
theorem entry_at_encode_delete (ts : Nat) (key : List Nat)
    (hutf : validUtf8 key = true) (hlen : key.length < 256 ^ 8) :
    entry_at (encodeEntry ts key .delete) 0
      = .ok (⟨0, key, .delete⟩, 19 + key.length) := by
  have hmodL : key.length % 256 ^ 8 = key.length := Nat.mod_eq_of_lt hlen
  have h5 : readN key.length (key ++ [1]) = some (key, [1]) :=
    readN_exact _ _ _ rfl
  have h7 : readN 1 [1] = some ([1], ([] : List Nat)) := rfl
  have hcs : ∀ bs : List Nat, crc16 bs % 256 ^ 2 = crc16 bs := fun bs =>
    Nat.mod_eq_of_lt (by have := crc16_lt bs; omega)
  simp only [entry_at, encodeEntry, entryPayload, List.append_assoc,
    List.drop_zero, readN_natToBE, h5, hutf, h7, beToNat_natToBE, hmodL,
    natToBE_mod, hcs, List.headD, if_true, if_pos]
  rw [if_neg (by norm_num : ((1 : Nat) = 0) → False)]
  norm_num
  omega

/-- C8: decoding enforces no `MAX_FIELD_BYTES` bound.  A record whose
key-length field is `2^26 + 1` (one byte over 64 MiB) decodes successfully:
`Log::entry_at` reads the length field and immediately allocates and fills
a buffer of that size (`vec![0; key_len]`), never comparing it against any
safety bound, instead of refusing with `CorruptRecord` as the claim
requires. -/
theorem oversize_key_decoded_without_bound :
    MAX_FIELD_BYTES < bigLen ∧
    entry_at (encodeEntry 0 bigKey .delete) 0
      = .ok (⟨0, bigKey, .delete⟩, 19 + bigLen) := by
  constructor
  · norm_num [MAX_FIELD_BYTES, bigLen]
  · have h := entry_at_encode_delete 0 bigKey
      (by rw [bigKey]; exact validUtf8_replicate _)
      (by rw [bigKey_length]; norm_num [bigLen])
    rw [h, bigKey_length]

end Silo
